import Mathlib

/-!
Shallow embedding of the Battleships core (Board/Cell placement-and-shooting
engine, ship/mine hit accounting, shooting-phase turn logic, and the
hunt-and-target computer player) together with theorems settling the frozen
claims about it.

Python object references are modelled by an explicit heap: a game state
carries a list of game objects, and cells/registries/fleets store indices
into that heap, so that aliasing (a shot through a cell mutating the same
object a player's fleet list sees) is represented faithfully.
-/

namespace Battleships

/-- Orientation of a game object (src/Utils/Orientation.py). -/
inductive Orientation where
  | horizontal
  | vertical
  deriving DecidableEq, Repr

/-- Ship state: size and registered hit count (Ship.py).  The display name is
irrelevant to the verified logic and omitted. -/
structure Ship where
  size : Nat
  hits : Nat
  deriving DecidableEq, Repr

/-- Ship.on_hit: increment the hit count if it is still below the size, and
return the updated ship together with is_destroyed after the hit. -/
def Ship.on_hit (s : Ship) : Ship × Bool :=
  let s2 := if s.hits < s.size then { s with hits := s.hits + 1 } else s
  (s2, s2.size ≤ s2.hits)

/-- Ship.is_destroyed: hits equal or exceed the ship size. -/
def Ship.is_destroyed (s : Ship) : Bool :=
  s.size ≤ s.hits

/-- Ship.destroy: instantly destroy the ship by setting hits to the size. -/
def Ship.destroy (s : Ship) : Ship :=
  { s with hits := s.size }

/-- Payload distinguishing the two concrete GameObject kinds: a Ship with its
hit accounting, or a Mine with its triggered flag (Mine.py). -/
inductive ObjPayload where
  | ship (s : Ship)
  | mine (triggered : Bool)
  deriving DecidableEq, Repr

/-- GameObject (GameObject.py): payload (kind-specific state), the occupied
coordinates, the placed flag and the orientation. -/
structure GameObject where
  payload : ObjPayload
  coordinates : List (Int × Int)
  isPlaced : Bool
  orientation : Orientation
  deriving DecidableEq, Repr

/-- Size of a game object: a ship has its size field, a mine occupies one cell. -/
def GameObject.size (g : GameObject) : Nat :=
  match g.payload with
  | .ship s => s.size
  | .mine _ => 1

/-- GameObject.is_destroyed, dispatching on the object kind. -/
def GameObject.is_destroyed (g : GameObject) : Bool :=
  match g.payload with
  | .ship s => s.is_destroyed
  | .mine t => t

/-- GameObject.on_hit, dispatching on the object kind: a ship increments its
hit count (Ship.on_hit), a mine sets its triggered flag; both return
is_destroyed after the hit.  The hit coordinates are unused by both concrete
implementations and therefore omitted. -/
def GameObject.on_hit (g : GameObject) : GameObject × Bool :=
  match g.payload with
  | .ship s =>
    let r := s.on_hit
    ({ g with payload := .ship r.1 }, r.2)
  | .mine _ => ({ g with payload := .mine true }, true)

/-- Ship.destroy lifted to a GameObject.  Python defines destroy only on
Ship; the mine case is unreachable in the modelled flows and is the identity. -/
def GameObject.destroy (g : GameObject) : GameObject :=
  match g.payload with
  | .ship s => { g with payload := .ship s.destroy }
  | .mine _ => g

/-- Whether the object is a Mine (the isinstance check in the phases). -/
def GameObject.isMine (g : GameObject) : Bool :=
  match g.payload with
  | .ship _ => false
  | .mine _ => true

/-- Coordinates computed by GameObject.set_position from a start point, the
orientation and the size. -/
def setPositionCoords (size : Nat) (o : Orientation) (x y : Int) : List (Int × Int) :=
  match o with
  | .horizontal => (List.range size).map fun i => (x + i, y)
  | .vertical => (List.range size).map fun i => (x, y + i)

/-- GameObject.set_position: recompute the coordinate list from the start
point and the current orientation. -/
def GameObject.set_position (g : GameObject) (x y : Int) : GameObject :=
  { g with coordinates := setPositionCoords g.size g.orientation x y }

/-- Replace the orientation (the assignments in Player._can_place). -/
def GameObject.withOrientation (g : GameObject) (o : Orientation) : GameObject :=
  { g with orientation := o }

/-- ShootResult (ShootResult.py).  hit_object holds the heap index of the hit
object instead of a Python object reference. -/
structure ShootResult where
  hit : Bool
  is_destroyed : Bool
  missed : Bool
  hit_object : Option Nat := none
  deriving DecidableEq, Repr

/-- ShootResult.miss. -/
def ShootResult.miss : ShootResult :=
  { hit := false, is_destroyed := false, missed := true, hit_object := none }

/-- Cell (Cell.py): the occupying object (heap index) and the shot flag.  The
coordinates stored on a Python cell are only passed to on_hit, which ignores
them, and the is_adjacent marker is UI-only preview state never read by the
verified logic; both are omitted. -/
structure Cell where
  obj : Option Nat := none
  isShot : Bool := false
  deriving DecidableEq, Repr

/-- Board (Board.py): dimensions, the grid (indexed grid[x][y] like the Python
list-of-columns comprehension) and the registry of placed objects (heap
indices). -/
structure Board where
  width : Nat
  height : Nat
  grid : List (List Cell)
  objects : List Nat
  deriving DecidableEq, Repr

/-- Fresh board of the given dimensions, every cell unoccupied and unshot
(Board.__init__). -/
def Board.init (w h : Nat) : Board :=
  { width := w, height := h
    grid := List.replicate w (List.replicate h {})
    objects := [] }

/-- Bounds test used by Board.get_cell and Board._get_adjacent_cells. -/
def Board.inBounds (b : Board) (x y : Int) : Bool :=
  0 ≤ x && x < (b.width : Int) && 0 ≤ y && y < (b.height : Int)

/-- Board.get_cell: the cell at (x, y) if within bounds, else none. -/
def Board.get_cell (b : Board) (x y : Int) : Option Cell :=
  if b.inBounds x y then (b.grid[x.toNat]?).bind fun col => col[y.toNat]? else none

/-- Overwrite the cell at (x, y); out-of-range writes are a no-op (the Python
code only writes through cells obtained from get_cell). -/
def Board.setCell (b : Board) (x y : Int) (c : Cell) : Board :=
  { b with grid := b.grid.set x.toNat ((b.grid.getD x.toNat []).set y.toNat c) }

/-- Coordinates visited by Board._get_adjacent_cells: for every object
coordinate, every in-bounds offset with dx, dy in [-1, 0, 1] except (0, 0).
The Python code collects the corresponding cells into a set; deduplication
does not matter for the all-unoccupied check, so the raw coordinate list is
kept. -/
def Board.adjacentCoords (b : Board) (obj : GameObject) : List (Int × Int) :=
  obj.coordinates.flatMap fun p =>
    ([-1, 0, 1] : List Int).flatMap fun dx =>
      ([-1, 0, 1] : List Int).filterMap fun dy =>
        if (dx = 0 ∧ dy = 0) ∨ ¬ b.inBounds (p.1 + dx) (p.2 + dy) then none
        else some (p.1 + dx, p.2 + dy)

/-- Board.can_place_object: every target coordinate must resolve to an
unoccupied cell, and every adjacent cell (including diagonals) must be
unoccupied. -/
def Board.can_place_object (b : Board) (obj : GameObject) : Bool :=
  (obj.coordinates.all fun p =>
    match b.get_cell p.1 p.2 with
    | none => false
    | some c => !c.obj.isSome) &&
  (((b.adjacentCoords obj).filterMap fun q => b.get_cell q.1 q.2).all fun c =>
    !c.obj.isSome)

/-- Combined state of one board together with the heap of game objects its
cells, registry and owning player refer to by index. -/
structure GameState where
  board : Board
  heap : List GameObject
  deriving DecidableEq, Repr

/-- Apply a function to the heap entry at the given index, if present. -/
def GameState.modifyObj (st : GameState) (oid : Nat) (f : GameObject → GameObject) :
    GameState :=
  match st.heap[oid]? with
  | some o => { st with heap := st.heap.set oid (f o) }
  | none => st

/-- Cell.place_object performed through the board: store the object index in
the cell and set the object's placed flag.  A missing cell is unreachable in
the modelled flows (place_object only writes coordinates validated by
can_place_object) and leaves the state unchanged. -/
def GameState.placeCell (st : GameState) (x y : Int) (oid : Nat) : GameState :=
  match st.board.get_cell x y with
  | none => st
  | some c =>
    ({ st with board := st.board.setCell x y { c with obj := some oid } }).modifyObj
      oid fun o => { o with isPlaced := true }

/-- Board.place_object: re-validate with can_place_object; on failure return
false with the state untouched, otherwise mark every target cell, set the
placed flag and append the object to the registry. -/
def GameState.place_object (st : GameState) (oid : Nat) : Bool × GameState :=
  match st.heap[oid]? with
  | none => (false, st)
  | some obj =>
    if st.board.can_place_object obj then
      let st1 := obj.coordinates.foldl (fun s p => s.placeCell p.1 p.2 oid) st
      let st2 := st1.modifyObj oid fun o => { o with isPlaced := true }
      (true, { st2 with board := { st2.board with objects := st2.board.objects ++ [oid] } })
    else (false, st)

/-- Board.shoot_at combined with Cell.shoot: an out-of-bounds or already-shot
cell yields a miss-shaped result without mutation; otherwise the cell is
marked shot and, when occupied, the object's on_hit runs and the result
reports whether that hit destroyed it.  A dangling object index is
unreachable and reported as a hit without heap mutation. -/
def GameState.shoot_at (st : GameState) (x y : Int) : ShootResult × GameState :=
  match st.board.get_cell x y with
  | none => ({ hit := false, is_destroyed := false, missed := true }, st)
  | some cell =>
    if cell.isShot then
      ({ hit := false, is_destroyed := false, missed := false }, st)
    else
      let st1 := { st with board := st.board.setCell x y { cell with isShot := true } }
      match cell.obj with
      | some oid =>
        match st1.heap[oid]? with
        | some o =>
          let r := o.on_hit
          ({ hit := true, is_destroyed := r.2, missed := false, hit_object := some oid },
            { st1 with heap := st1.heap.set oid r.1 })
        | none =>
          ({ hit := true, is_destroyed := false, missed := false, hit_object := some oid },
            st1)
      | none => (ShootResult.miss, st1)

/-- Player (Player.py): the game state of the player's own board plus the
fleet list self.objects (heap indices into the same state). -/
structure PlayerSt where
  gs : GameState
  fleet : List Nat
  deriving DecidableEq, Repr

/-- Player.has_lost: all owned objects are destroyed (vacuously true on an
empty fleet).  A dangling fleet index is unreachable; it defaults to
destroyed. -/
def PlayerSt.has_lost (p : PlayerSt) : Bool :=
  p.fleet.all fun i => ((p.gs.heap[i]?).map GameObject.is_destroyed).getD true

/-- Player._get_all_valid_positions: scan rows and columns over the default
10 by 10 configuration (BoardConfig.DEFAULT_HEIGHT and DEFAULT_WIDTH) and
both orientations, keeping those where _can_place succeeds, i.e. where the
object repositioned to (row, col) with that orientation passes
can_place_object. -/
def PlayerSt.valid_positions (p : PlayerSt) (obj : GameObject) :
    List (Nat × Nat × Orientation) :=
  (List.range 10).flatMap fun row =>
    (List.range 10).flatMap fun col =>
      ([.horizontal, .vertical] : List Orientation).filterMap fun dir =>
        if p.gs.board.can_place_object
            (((obj.withOrientation dir).set_position row col)) then
          some (row, col, dir)
        else none

/-- Leftover mutation of the _get_all_valid_positions scan: _can_place sets
the orientation and position on the shared object each iteration, so after a
full scan the object sits at the last candidate (row 9, col 9, vertical). -/
def scanLeftover (o : GameObject) : GameObject :=
  (o.withOrientation .vertical).set_position 9 9

/-- Player._place_safely: collect all valid positions, fail without placing
when there are none, otherwise reposition the object to a chosen candidate
and place it via Board.place_object.  The random.choice is modelled by the
pick parameter selecting an index into the candidate list. -/
def PlayerSt.place_safely (p : PlayerSt) (oid : Nat) (pick : Nat) : Bool × PlayerSt :=
  match p.gs.heap[oid]? with
  | none => (false, p)
  | some obj =>
    let vps := p.valid_positions obj
    let pScan : PlayerSt := { p with gs := p.gs.modifyObj oid scanLeftover }
    if vps.isEmpty then (false, pScan)
    else
      let cand := vps.getD (pick % vps.length) (0, 0, .horizontal)
      let p2 : PlayerSt :=
        { pScan with
          gs := pScan.gs.modifyObj oid fun o =>
            (o.withOrientation cand.2.2).set_position cand.1 cand.2.1 }
      let r := p2.gs.place_object oid
      (r.1, { p2 with gs := r.2 })

/-- Player.place_random: delegate to _place_safely, then append the object to
the fleet list unconditionally and return the placement result. -/
def PlayerSt.place_random (p : PlayerSt) (oid : Nat) (pick : Nat) : Bool × PlayerSt :=
  let r := p.place_safely oid pick
  (r.1, { r.2 with fleet := r.2.fleet ++ [oid] })

/-- Standard ShootingPhase (ShootingPhase.py restricted to the state the
claims concern): the two players and the index of the acting player.
Callbacks, logging, window timers and the computer-move scheduling neither
read nor write this state synchronously. -/
structure ShootPhase where
  player0 : PlayerSt
  player1 : PlayerSt
  current_player_idx : Nat
  deriving DecidableEq, Repr

/-- GamePhase.game_over: any player has lost. -/
def ShootPhase.game_over (ph : ShootPhase) : Bool :=
  ph.player0.has_lost || ph.player1.has_lost

/-- GamePhase.next_player: alternate the acting player index. -/
def ShootPhase.next_player (ph : ShootPhase) : ShootPhase :=
  { ph with current_player_idx := 1 - ph.current_player_idx }

/-- ShootingPhase.next_turn: a miss passes the turn; then, if the game is
over, transition to the end phase (reported by the returned flag). -/
def ShootPhase.next_turn (ph : ShootPhase) (hit : Bool) : ShootPhase × Bool :=
  let ph1 := if !hit then ph.next_player else ph
  if ph1.game_over then (ph1, true) else (ph1, false)

/-- ExtendedShootingPhase (ExtendedShootingPhase.py): the shooting-phase
state plus ship selection, the per-turn shot counter and the mine flag.
Ship references are heap indices into the current player's game state. -/
structure ExtPhase where
  player0 : PlayerSt
  player1 : PlayerSt
  current_player_idx : Nat
  shooting_ship : Option Nat
  shot : Nat
  selected_ship : Option Nat
  active_ship : Option Nat
  selection_done : Bool
  hit_mine : Bool
  deriving DecidableEq, Repr

/-- Indexing self.players: index 0 is the first player, any other index the
second (the code only ever produces 0 and 1). -/
def ExtPhase.playerAt (ph : ExtPhase) (i : Nat) : PlayerSt :=
  if i = 0 then ph.player0 else ph.player1

/-- Replace the player at the given index. -/
def ExtPhase.setPlayerAt (ph : ExtPhase) (i : Nat) (p : PlayerSt) : ExtPhase :=
  if i = 0 then { ph with player0 := p } else { ph with player1 := p }

/-- GamePhase.current_player. -/
def ExtPhase.currentPlayer (ph : ExtPhase) : PlayerSt :=
  ph.playerAt ph.current_player_idx

/-- GamePhase.other_player. -/
def ExtPhase.otherPlayer (ph : ExtPhase) : PlayerSt :=
  ph.playerAt (1 - ph.current_player_idx)

/-- GamePhase.game_over for the extended phase. -/
def ExtPhase.game_over (ph : ExtPhase) : Bool :=
  ph.player0.has_lost || ph.player1.has_lost

/-- ExtendedShootingPhase.next_player: clear the ship selection, the shot
counter and the mine flag, then alternate the player index. -/
def ExtPhase.next_player (ph : ExtPhase) : ExtPhase :=
  { ph with
    shooting_ship := none
    selected_ship := none
    active_ship := none
    shot := 0
    hit_mine := false
    current_player_idx := 1 - ph.current_player_idx }

/-- ExtendedShootingPhase.next_turn: pass the turn when no ship was selected
and one shot was fired, when the shot count reached the selected ship's
size, or when a mine was hit; then check for the end-phase transition. -/
def ExtPhase.next_turn (ph : ExtPhase) (_hit : Bool) : ExtPhase × Bool :=
  let size : Nat :=
    match ph.shooting_ship with
    | some sid => ((ph.currentPlayer.gs.heap[sid]?).map GameObject.size).getD 0
    | none => 0
  let ph1 :=
    if (ph.shooting_ship.isNone && ph.shot == 1) || size ≤ ph.shot || ph.hit_mine then
      ph.next_player
    else ph
  if ph1.game_over then (ph1, true) else (ph1, false)

/-- The isinstance Mine check on result.hit_object, resolved through the heap
of the board that was shot at. -/
def hitObjectIsMine (gs : GameState) (r : ShootResult) : Bool :=
  match r.hit_object with
  | some oid => ((gs.heap[oid]?).map GameObject.isMine).getD false
  | none => false

/-- ExtendedShootingPhase.execute_turn: shoot at the opponent's board, count
the shot when a ship is selected, and if the shot hit a mine while a ship is
selected, destroy the selected ship, shoot every one of its cells on the own
board (setting hit_mine on each iteration) and finally run next_turn.  The
AI bookkeeping calls (process_shot_result) and logging touch no phase state.
Returns the hit flag together with the next_turn result. -/
def ExtPhase.execute_turn (ph : ExtPhase) (x y : Int) : Bool × ExtPhase × Bool :=
  let shotRes := ph.otherPlayer.gs.shoot_at x y
  let result := shotRes.1
  let ph1 := ph.setPlayerAt (1 - ph.current_player_idx) { ph.otherPlayer with gs := shotRes.2 }
  let ph2 := if ph1.shooting_ship.isSome then { ph1 with shot := ph1.shot + 1 } else ph1
  let ph3 :=
    if result.hit && hitObjectIsMine shotRes.2 result && ph2.shooting_ship.isSome then
      match ph2.shooting_ship with
      | some sid =>
        match ph2.currentPlayer.gs.heap[sid]? with
        | some shipObj =>
          let gsCur := ph2.currentPlayer.gs.modifyObj sid GameObject.destroy
          let fold := shipObj.coordinates.foldl
            (fun (acc : GameState × Bool) q => ((acc.1.shoot_at q.1 q.2).2, true))
            (gsCur, ph2.hit_mine)
          let ph4 := ph2.setPlayerAt ph2.current_player_idx
            { ph2.currentPlayer with gs := fold.1 }
          { ph4 with hit_mine := fold.2 }
        | none => ph2
      | none => ph2
    else ph2
  (result.hit, ph3.next_turn result.hit)

/-- Hunt-and-target computer player state (MediumComputerPlayer.py, inherited
unchanged by the statistical Hard variant): the board dimensions it targets,
the untried coordinates, the priority search queue, the committed direction
and the first hit on the current target ship. -/
structure MediumAI where
  width : Nat
  height : Nat
  available_targets : List (Int × Int)
  search_queue : List (Int × Int)
  current_direction : Option (Int × Int)
  first_hit : Option (Int × Int)
  deriving DecidableEq, Repr

/-- MediumComputerPlayer.get_valid_neighbors: candidate directions from the
known orientation (both axes when unknown), filtered to in-bounds
coordinates that are still available and not already queued. -/
def MediumAI.get_valid_neighbors (ai : MediumAI) (x y : Int)
    (direction : Option Orientation) : List (Int × Int) :=
  let dirs : List (Int × Int) :=
    (if direction = some .horizontal ∨ direction = none then [(1, 0), (-1, 0)] else []) ++
    (if direction = some .vertical ∨ direction = none then [(0, 1), (0, -1)] else [])
  dirs.filterMap fun d =>
    if 0 ≤ x + d.1 ∧ x + d.1 < (ai.width : Int) ∧ 0 ≤ y + d.2 ∧ y + d.2 < (ai.height : Int)
        ∧ (x + d.1, y + d.2) ∈ ai.available_targets
        ∧ (x + d.1, y + d.2) ∉ ai.search_queue then
      some (x + d.1, y + d.2)
    else none

/-- MediumComputerPlayer.get_surrounding_cells: all in-bounds cells around a
position, diagonals included. -/
def MediumAI.get_surrounding_cells (ai : MediumAI) (x y : Int) : List (Int × Int) :=
  ([-1, 0, 1] : List Int).flatMap fun dx =>
    ([-1, 0, 1] : List Int).filterMap fun dy =>
      if dx = 0 ∧ dy = 0 then none
      else if 0 ≤ x + dx ∧ x + dx < (ai.width : Int) ∧ 0 ≤ y + dy ∧ y + dy < (ai.height : Int) then
        some (x + dx, y + dy)
      else none

/-- MediumComputerPlayer.process_shot_result: on a miss with a committed
direction, probe the mirror side of the first hit and drop the direction; on
a destroying hit, clear all hunt state and remove the surroundings of every
destroyed-ship cell from the available targets; on a first hit, record it
and enqueue its orthogonal untried neighbors; on a follow-up hit, commit the
direction from the coordinate delta and push the next cell on that line to
the front of the queue. -/
def MediumAI.process_shot_result (ai : MediumAI) (x y : Int)
    (was_hit ship_destroyed : Bool) (destroyed_ship_cells : List (Int × Int)) : MediumAI :=
  if !was_hit then
    match ai.current_direction, ai.first_hit with
    | some d, some fh =>
      let n := (fh.1 - d.1, fh.2 - d.2)
      let ai1 :=
        if n ∈ ai.available_targets ∧ n ∉ ai.search_queue then
          { ai with search_queue := n :: ai.search_queue }
        else ai
      { ai1 with current_direction := none }
    | _, _ => ai
  else if ship_destroyed then
    let ai1 := { ai with search_queue := [], current_direction := none, first_hit := none }
    if destroyed_ship_cells.isEmpty then ai1
    else
      destroyed_ship_cells.foldl
        (fun a c =>
          (a.get_surrounding_cells c.1 c.2).foldl
            (fun a2 n =>
              if n ∈ a2.available_targets then
                { a2 with available_targets := a2.available_targets.erase n }
              else a2)
            a)
        ai1
  else
    match ai.first_hit with
    | none =>
      { ai with
        first_hit := some (x, y)
        search_queue := ai.search_queue ++ ai.get_valid_neighbors x y none }
    | some fh =>
      let ai1 :=
        match ai.current_direction with
        | none =>
          let d : Int × Int :=
            if x = fh.1 then (if fh.2 < y then (0, 1) else (0, -1))
            else (if fh.1 < x then (1, 0) else (-1, 0))
          { ai with current_direction := some d }
        | some _ => ai
      match ai1.current_direction with
      | some d =>
        if (x + d.1, y + d.2) ∈ ai1.available_targets then
          { ai1 with search_queue := (x + d.1, y + d.2) :: ai1.search_queue }
        else ai1
      | none => ai1

/-- Moore adjacency of two coordinates: distinct, and within distance one on
both axes (the 8-connected neighborhood of the specification). -/
def mooreAdjacent (p q : Int × Int) : Prop :=
  q ≠ p ∧ (q.1 - p.1).natAbs ≤ 1 ∧ (q.2 - p.2).natAbs ≤ 1

instance (p q : Int × Int) : Decidable (mooreAdjacent p q) := by
  unfold mooreAdjacent; infer_instance

/-- Orthogonal (4-connected) adjacency of two coordinates. -/
def orthNeighbor (p q : Int × Int) : Prop :=
  (q.1 - p.1).natAbs + (q.2 - p.2).natAbs = 1

instance (p q : Int × Int) : Decidable (orthNeighbor p q) := by
  unfold orthNeighbor; infer_instance

/-- Operations a caller can perform on a Ship after construction. -/
inductive ShipOp where
  | hit
  | forceDestroy
  deriving DecidableEq, Repr

/-- Apply one operation to a ship: an on_hit call or a forced destroy. -/
def Ship.applyOp (s : Ship) : ShipOp → Ship
  | .hit => s.on_hit.1
  | .forceDestroy => s.destroy

/-- Ship state reached from construction (Ship.__init__ sets hits to zero)
after a sequence of operations. -/
def Ship.run (size : Nat) (ops : List ShipOp) : Ship :=
  ops.foldl Ship.applyOp { size := size, hits := 0 }

lemma Ship.applyOp_size (s : Ship) (op : ShipOp) : (s.applyOp op).size = s.size := by
  cases op <;> simp [Ship.applyOp, Ship.on_hit, Ship.destroy] <;> split <;> rfl

lemma Ship.applyOp_hits_le (s : Ship) (op : ShipOp) (h : s.hits ≤ s.size) :
    (s.applyOp op).hits ≤ (s.applyOp op).size := by
  cases op <;> simp [Ship.applyOp, Ship.on_hit, Ship.destroy]
  split <;> simp_all <;> omega

lemma Ship.run_invariant (size : Nat) (ops : List ShipOp) :
    (Ship.run size ops).size = size ∧ (Ship.run size ops).hits ≤ size := by
  unfold Ship.run
  generalize hs : ({ size := size, hits := 0 } : Ship) = s₀
  have h₀ : s₀.size = size ∧ s₀.hits ≤ s₀.size := by
    subst hs; exact ⟨rfl, Nat.zero_le _⟩
  clear hs
  induction ops generalizing s₀ with
  | nil => simpa using ⟨h₀.1, h₀.1 ▸ h₀.2⟩
  | cons op rest ih =>
    simp only [List.foldl_cons]
    exact ih (s₀.applyOp op)
      ⟨(Ship.applyOp_size s₀ op).trans h₀.1, Ship.applyOp_hits_le s₀ op h₀.2⟩

/-- C4: for every Ship, under any sequence of on_hit and destroy calls
starting from construction, the hit counter never exceeds the ship's size,
and the ship reports is_destroyed exactly when hits equals size; a state with
hits greater than size is unreachable. -/
theorem ship_hits_never_exceed_size (size : Nat) (ops : List ShipOp) :
    (Ship.run size ops).hits ≤ size ∧
      ((Ship.run size ops).is_destroyed = true ↔ (Ship.run size ops).hits = size) := by
  obtain ⟨hsize, hle⟩ := Ship.run_invariant size ops
  refine ⟨hle, ?_⟩
  simp only [Ship.is_destroyed, hsize, decide_eq_true_eq]
  omega

/-- C5: in the standard Shooting phase, next_turn after a miss always flips
current_player_idx to the other player, and next_turn after a hit never
changes current_player_idx — also when the game ends on that shot, so the
player who fired the game-ending hit is still the current player at the
transition to End. -/
theorem shooting_next_turn_alternation (ph : ShootPhase) :
    ((ph.next_turn true).1.current_player_idx = ph.current_player_idx) ∧
      ((ph.next_turn false).1.current_player_idx = 1 - ph.current_player_idx) := by
  have h : ∀ hit : Bool, (ph.next_turn hit).1 = if hit then ph else ph.next_player := by
    intro hit
    cases hit <;> simp [ShootPhase.next_turn] <;> split <;> rfl
  rw [h true, h false]
  exact ⟨rfl, rfl⟩

lemma Board.get_cell_inBounds {b : Board} {x y : Int} {c : Cell}
    (h : b.get_cell x y = some c) : b.inBounds x y = true := by
  unfold Board.get_cell at h
  by_cases hb : b.inBounds x y = true
  · exact hb
  · simp [hb] at h

lemma Board.mem_adjacentCoords {b : Board} {obj : GameObject} {q : Int × Int} :
    q ∈ b.adjacentCoords obj ↔
      ∃ p ∈ obj.coordinates, mooreAdjacent p q ∧ b.inBounds q.1 q.2 = true := by
  unfold Board.adjacentCoords
  simp only [List.mem_flatMap, List.mem_filterMap]
  constructor
  · rintro ⟨p, hp, dx, hdx, dy, hdy, hq⟩
    split at hq
    · exact absurd hq (by simp)
    · rename_i hcond
      push_neg at hcond
      obtain ⟨hne, hin⟩ := hcond
      obtain rfl : q = (p.1 + dx, p.2 + dy) := (Option.some.inj hq).symm
      refine ⟨p, hp, ⟨?_, ?_, ?_⟩, hin⟩
      · intro hqp
        have h1 : p.1 + dx = p.1 := congrArg Prod.fst hqp
        have h2 : p.2 + dy = p.2 := congrArg Prod.snd hqp
        exact hne (by omega) (by omega)
      · have hd : dx = -1 ∨ dx = 0 ∨ dx = 1 := by simpa using hdx
        simp only []
        omega
      · have hd : dy = -1 ∨ dy = 0 ∨ dy = 1 := by simpa using hdy
        simp only []
        omega
  · rintro ⟨p, hp, ⟨hne, hx, hy⟩, hin⟩
    refine ⟨p, hp, q.1 - p.1, ?_, q.2 - p.2, ?_, ?_⟩
    · simp; omega
    · simp; omega
    · have hq1 : p.1 + (q.1 - p.1) = q.1 := by omega
      have hq2 : p.2 + (q.2 - p.2) = q.2 := by omega
      split
      · rename_i hcond
        exfalso
        rcases hcond with ⟨h1, h2⟩ | hnb
        · exact hne (Prod.ext (by omega) (by omega))
        · rw [hq1, hq2] at hnb
          exact hnb hin
      · exact congrArg some (Prod.ext (by omega) (by omega))

lemma Board.can_place_spec (b : Board) (obj : GameObject) :
    b.can_place_object obj = true ↔
      ((∀ p ∈ obj.coordinates, ∃ c, b.get_cell p.1 p.2 = some c ∧ c.obj = none) ∧
        ∀ p ∈ obj.coordinates, ∀ q : Int × Int, mooreAdjacent p q →
          ∀ c, b.get_cell q.1 q.2 = some c → c.obj = none) := by
  unfold Board.can_place_object
  rw [Bool.and_eq_true, List.all_eq_true, List.all_eq_true]
  constructor
  · rintro ⟨h1, h2⟩
    constructor
    · intro p hp
      have hm := h1 p hp
      cases hc : b.get_cell p.1 p.2 with
      | none => rw [hc] at hm; simp at hm
      | some c =>
        rw [hc] at hm
        simp only [Bool.not_eq_true'] at hm
        exact ⟨c, rfl, Option.not_isSome_iff_eq_none.mp (by simp [hm])⟩
    · intro p hp q hq c hc
      have hmem : c ∈ (b.adjacentCoords obj).filterMap fun r => b.get_cell r.1 r.2 :=
        List.mem_filterMap.mpr
          ⟨q, Board.mem_adjacentCoords.mpr ⟨p, hp, hq, Board.get_cell_inBounds hc⟩, hc⟩
      have hm := h2 c hmem
      simp only [Bool.not_eq_true'] at hm
      exact Option.not_isSome_iff_eq_none.mp (by simp [hm])
  · rintro ⟨h1, h2⟩
    constructor
    · intro p hp
      obtain ⟨c, hc, hnone⟩ := h1 p hp
      rw [hc]
      simp [hnone]
    · intro c hc
      obtain ⟨q, hq, hcell⟩ := List.mem_filterMap.mp hc
      obtain ⟨p, hp, hmoore, _⟩ := Board.mem_adjacentCoords.mp hq
      have := h2 p hp q hmoore c hcell
      simp [this]

/-- C1: can_place_object returns true exactly when every target coordinate of
the object resolves to an in-bounds unoccupied cell and every in-bounds cell
in the Moore (8-connected) neighborhood of every target coordinate is
unoccupied; in particular an otherwise-free placement that touches another
placed object, even only diagonally, is rejected. -/
theorem can_place_object_iff (b : Board) (obj : GameObject) :
    b.can_place_object obj = true ↔
      ((∀ p ∈ obj.coordinates, ∃ c, b.get_cell p.1 p.2 = some c ∧ c.obj = none) ∧
        ∀ p ∈ obj.coordinates, ∀ q : Int × Int, mooreAdjacent p q →
          ∀ c, b.get_cell q.1 q.2 = some c → c.obj = none) :=
  Board.can_place_spec b obj

lemma getDSet_bind (l : List (List Cell)) (i j u v : Nat) (c : Cell)
    (hne : i ≠ u ∨ j ≠ v) :
    ((l.set i ((l.getD i []).set j c))[u]?).bind (fun col => col[v]?) =
      (l[u]?).bind fun col => col[v]? := by
  rcases hne with hne | hne
  · rw [List.getElem?_set_ne hne]
  · by_cases hiu : i = u
    · subst hiu
      cases hg : l[i]? with
      | none =>
        have hlen : l.length ≤ i := by
          by_contra hlt
          push_neg at hlt
          rw [List.getElem?_eq_getElem hlt] at hg
          simp at hg
        rw [List.set_eq_of_length_le hlen, hg]
      | some col =>
        have hi : i < l.length := (List.getElem?_eq_some.mp hg).1
        have hgetD : l.getD i [] = col := by simp [List.getD, hg]
        rw [hgetD, List.getElem?_set_eq_of_lt _ hi]
        simp only [Option.some_bind]
        rw [List.getElem?_set_ne hne]
    · rw [List.getElem?_set_ne hiu]

lemma Board.get_cell_setCell_self {b : Board} {x y : Int} {c₀ : Cell} (c : Cell)
    (h : b.get_cell x y = some c₀) : (b.setCell x y c).get_cell x y = some c := by
  have hin : b.inBounds x y = true := Board.get_cell_inBounds h
  unfold Board.get_cell at h ⊢
  rw [if_pos hin] at h
  rw [show (b.setCell x y c).inBounds x y = b.inBounds x y from rfl, if_pos hin]
  obtain ⟨col, hcol, hcell⟩ :
      ∃ col, b.grid[x.toNat]? = some col ∧ col[y.toNat]? = some c₀ := by
    cases hg : b.grid[x.toNat]? with
    | none => rw [hg] at h; simp at h
    | some col =>
      refine ⟨col, rfl, ?_⟩
      rw [hg] at h
      exact h
  have hx : x.toNat < b.grid.length := (List.getElem?_eq_some.mp hcol).1
  have hy : y.toNat < col.length := (List.getElem?_eq_some.mp hcell).1
  have hgetD : b.grid.getD x.toNat [] = col := by simp [List.getD, hcol]
  show ((b.grid.set x.toNat ((b.grid.getD x.toNat []).set y.toNat c))[x.toNat]?).bind
      (fun col => col[y.toNat]?) = some c
  rw [hgetD, List.getElem?_set_eq_of_lt _ hx]
  simp only [Option.some_bind]
  rw [List.getElem?_set_eq_of_lt _ hy]

lemma Board.get_cell_setCell_other {b : Board} {x y : Int} (u v : Int) (c : Cell)
    (hne : x.toNat ≠ u.toNat ∨ y.toNat ≠ v.toNat) :
    (b.setCell x y c).get_cell u v = b.get_cell u v := by
  unfold Board.get_cell
  rw [show (b.setCell x y c).inBounds u v = b.inBounds u v from rfl]
  split
  · exact getDSet_bind b.grid x.toNat y.toNat u.toNat v.toNat c hne
  · rfl

lemma GameState.shoot_at_noop {st : GameState} {x y : Int}
    (h : st.board.get_cell x y = none ∨
      ∃ c, st.board.get_cell x y = some c ∧ c.isShot = true) :
    (st.shoot_at x y).1.hit = false ∧ (st.shoot_at x y).1.is_destroyed = false ∧
      (st.shoot_at x y).2 = st := by
  unfold GameState.shoot_at
  rcases h with h | ⟨c, hc, hshot⟩
  · rw [h]
    exact ⟨rfl, rfl, rfl⟩
  · rw [hc]
    dsimp only
    rw [if_pos hshot]
    exact ⟨rfl, rfl, rfl⟩

lemma GameState.shoot_at_snd_board_unshot {st : GameState} {x y : Int} {c : Cell}
    (hc : st.board.get_cell x y = some c) (hshot : c.isShot = false) :
    (st.shoot_at x y).2.board = st.board.setCell x y { c with isShot := true } := by
  unfold GameState.shoot_at
  rw [hc]
  dsimp only
  rw [if_neg (by simp [hshot])]
  cases c.obj with
  | none => rfl
  | some oid =>
    cases hh : st.heap[oid]? with
    | none =>
      simp only [hh]
      try rfl
    | some o =>
      simp only [hh]
      try rfl

lemma GameState.shoot_at_guard_after (st : GameState) (x y : Int) :
    (st.shoot_at x y).2.board.get_cell x y = none ∨
      ∃ c, (st.shoot_at x y).2.board.get_cell x y = some c ∧ c.isShot = true := by
  cases hc : st.board.get_cell x y with
  | none =>
    left
    rw [(GameState.shoot_at_noop (Or.inl hc)).2.2]
    exact hc
  | some c =>
    by_cases hshot : c.isShot = true
    · rw [(GameState.shoot_at_noop (Or.inr ⟨c, hc, hshot⟩)).2.2]
      exact Or.inr ⟨c, hc, hshot⟩
    · right
      have hb := GameState.shoot_at_snd_board_unshot hc (by simpa using hshot)
      rw [hb]
      exact ⟨{ c with isShot := true }, Board.get_cell_setCell_self _ hc, rfl⟩

/-- C3: shoot_at on an out-of-bounds cell or on an already-shot cell returns
a result with hit false and is_destroyed false and leaves the whole state
unchanged; and after any shot, a second shot at the same coordinates again
yields such a miss-shaped result with no mutation and never re-triggers a
hit. -/
theorem shoot_at_fails_closed (st : GameState) (x y : Int)
    (h : st.board.get_cell x y = none ∨
      ∃ c, st.board.get_cell x y = some c ∧ c.isShot = true) :
    ((st.shoot_at x y).1.hit = false ∧ (st.shoot_at x y).1.is_destroyed = false ∧
        (st.shoot_at x y).2 = st) ∧
      ∀ (st₀ : GameState) (x₀ y₀ : Int),
        (((st₀.shoot_at x₀ y₀).2.shoot_at x₀ y₀).1.hit = false ∧
          ((st₀.shoot_at x₀ y₀).2.shoot_at x₀ y₀).1.is_destroyed = false ∧
          ((st₀.shoot_at x₀ y₀).2.shoot_at x₀ y₀).2 = (st₀.shoot_at x₀ y₀).2) :=
  ⟨GameState.shoot_at_noop h,
    fun st₀ x₀ y₀ => GameState.shoot_at_noop (GameState.shoot_at_guard_after st₀ x₀ y₀)⟩

/-- Concrete one-cell game state whose only cell is already shot. -/
def shotCellState : GameState :=
  { board := { width := 1, height := 1, grid := [[{ obj := none, isShot := true }]],
               objects := [] }
    heap := [] }

/-- Witness for C3 at a concrete input: a one-cell board whose only cell is
already shot. -/
theorem shoot_at_fails_closed_witness :
    (shotCellState.shoot_at 0 0).1.hit = false ∧
      (shotCellState.shoot_at 0 0).1.is_destroyed = false ∧
      (shotCellState.shoot_at 0 0).2 = shotCellState :=
  (shoot_at_fails_closed shotCellState 0 0
    (Or.inr ⟨{ obj := none, isShot := true }, by decide, rfl⟩)).1

lemma Board.get_cell_setCell_sameIdx {b : Board} {x y u v : Int} {c₀ : Cell} (c : Cell)
    (hx : x.toNat = u.toNat) (hy : y.toNat = v.toNat)
    (h : b.get_cell u v = some c₀) : (b.setCell x y c).get_cell u v = some c := by
  have hin : b.inBounds u v = true := Board.get_cell_inBounds h
  unfold Board.get_cell at h ⊢
  rw [if_pos hin] at h
  rw [show (b.setCell x y c).inBounds u v = b.inBounds u v from rfl, if_pos hin]
  obtain ⟨col, hcol, hcell⟩ :
      ∃ col, b.grid[u.toNat]? = some col ∧ col[v.toNat]? = some c₀ := by
    cases hg : b.grid[u.toNat]? with
    | none => rw [hg] at h; simp at h
    | some col =>
      refine ⟨col, rfl, ?_⟩
      rw [hg] at h
      exact h
  have hu : u.toNat < b.grid.length := (List.getElem?_eq_some.mp hcol).1
  have hv : v.toNat < col.length := (List.getElem?_eq_some.mp hcell).1
  have hgetD : b.grid.getD x.toNat [] = col := by simp [List.getD, hx, hcol]
  show ((b.grid.set x.toNat ((b.grid.getD x.toNat []).set y.toNat c))[u.toNat]?).bind
      (fun col => col[v.toNat]?) = some c
  rw [hgetD, hx, hy, List.getElem?_set_eq_of_lt _ hu]
  simp only [Option.some_bind]
  rw [List.getElem?_set_eq_of_lt _ hv]

lemma GameState.modifyObj_board (st : GameState) (oid : Nat) (f : GameObject → GameObject) :
    (st.modifyObj oid f).board = st.board := by
  unfold GameState.modifyObj
  cases st.heap[oid]? with
  | none => rfl
  | some o => rfl

lemma GameState.modifyObj_heap_get (st : GameState) (oid : Nat) (f : GameObject → GameObject) :
    (st.modifyObj oid f).heap[oid]? = (st.heap[oid]?).map f := by
  unfold GameState.modifyObj
  cases hh : st.heap[oid]? with
  | none => rw [hh]; rfl
  | some o =>
    have hlt : oid < st.heap.length := (List.getElem?_eq_some.mp hh).1
    show (st.heap.set oid (f o))[oid]? = _
    rw [List.getElem?_set_eq_of_lt _ hlt]
    rfl

lemma GameState.placeCell_board (st : GameState) (x y : Int) (oid : Nat) :
    (st.placeCell x y oid).board =
      match st.board.get_cell x y with
      | none => st.board
      | some c => st.board.setCell x y { c with obj := some oid } := by
  unfold GameState.placeCell
  cases hc : st.board.get_cell x y with
  | none => rfl
  | some c =>
    dsimp only
    rw [GameState.modifyObj_board]

lemma GameState.placeCell_objects (st : GameState) (x y : Int) (oid : Nat) :
    (st.placeCell x y oid).board.objects = st.board.objects := by
  rw [GameState.placeCell_board]
  cases st.board.get_cell x y with
  | none => rfl
  | some c => rfl

lemma GameState.placeCell_preserves_some (st : GameState) (x y u v : Int) (oid : Nat)
    (h : ∃ c, st.board.get_cell u v = some c) :
    ∃ c, (st.placeCell x y oid).board.get_cell u v = some c := by
  obtain ⟨c₀, hc₀⟩ := h
  rw [GameState.placeCell_board]
  cases hc : st.board.get_cell x y with
  | none => exact ⟨c₀, hc₀⟩
  | some c =>
    by_cases hne : x.toNat ≠ u.toNat ∨ y.toNat ≠ v.toNat
    · rw [Board.get_cell_setCell_other u v _ hne]
      exact ⟨c₀, hc₀⟩
    · push_neg at hne
      exact ⟨_, Board.get_cell_setCell_sameIdx _ hne.1 hne.2 hc₀⟩

lemma GameState.placeCell_preserves_Q (st : GameState) (x y u v : Int) (oid : Nat)
    (hQ : ∃ c, st.board.get_cell u v = some c ∧ c.obj = some oid) :
    ∃ c, (st.placeCell x y oid).board.get_cell u v = some c ∧ c.obj = some oid := by
  obtain ⟨c₀, hc₀, hobj⟩ := hQ
  rw [GameState.placeCell_board]
  cases hc : st.board.get_cell x y with
  | none => exact ⟨c₀, hc₀, hobj⟩
  | some c =>
    by_cases hne : x.toNat ≠ u.toNat ∨ y.toNat ≠ v.toNat
    · rw [Board.get_cell_setCell_other u v _ hne]
      exact ⟨c₀, hc₀, hobj⟩
    · push_neg at hne
      exact ⟨_, Board.get_cell_setCell_sameIdx _ hne.1 hne.2 hc₀, rfl⟩

lemma GameState.placeCell_establishes_Q (st : GameState) {x y : Int} {c : Cell} (oid : Nat)
    (hc : st.board.get_cell x y = some c) :
    ∃ c₂, (st.placeCell x y oid).board.get_cell x y = some c₂ ∧ c₂.obj = some oid := by
  rw [GameState.placeCell_board, hc]
  exact ⟨_, Board.get_cell_setCell_self _ hc, rfl⟩

lemma GameState.placeCell_heap_inv (st : GameState) (x y : Int) (oid : Nat) (obj : GameObject)
    (h : st.heap[oid]? = some obj ∨ st.heap[oid]? = some { obj with isPlaced := true }) :
    (st.placeCell x y oid).heap[oid]? = some obj ∨
      (st.placeCell x y oid).heap[oid]? = some { obj with isPlaced := true } := by
  unfold GameState.placeCell
  cases hc : st.board.get_cell x y with
  | none => exact h
  | some c =>
    dsimp only
    rw [show ({ st with board := st.board.setCell x y { c with obj := some oid } }
        : GameState).modifyObj oid (fun o => { o with isPlaced := true }) =
        ({ board := st.board.setCell x y { c with obj := some oid },
           heap := st.heap } : GameState).modifyObj oid
          (fun o => { o with isPlaced := true }) from rfl]
    rw [GameState.modifyObj_heap_get]
    show (st.heap[oid]?).map _ = _ ∨ (st.heap[oid]?).map _ = _
    rcases h with h | h <;> rw [h] <;> right <;> rfl

lemma GameState.foldl_placeCell_heap_inv (coords : List (Int × Int)) (st : GameState)
    (oid : Nat) (obj : GameObject)
    (h : st.heap[oid]? = some obj ∨ st.heap[oid]? = some { obj with isPlaced := true }) :
    (coords.foldl (fun s q => s.placeCell q.1 q.2 oid) st).heap[oid]? = some obj ∨
      (coords.foldl (fun s q => s.placeCell q.1 q.2 oid) st).heap[oid]? =
        some { obj with isPlaced := true } := by
  induction coords generalizing st with
  | nil => exact h
  | cons q rest ih =>
    exact ih _ (GameState.placeCell_heap_inv st q.1 q.2 oid obj h)

lemma GameState.foldl_placeCell_objects (coords : List (Int × Int)) (st : GameState)
    (oid : Nat) :
    (coords.foldl (fun s q => s.placeCell q.1 q.2 oid) st).board.objects =
      st.board.objects := by
  induction coords generalizing st with
  | nil => rfl
  | cons q rest ih =>
    rw [List.foldl_cons, ih, GameState.placeCell_objects]

lemma GameState.foldl_placeCell_preserves_Q (coords : List (Int × Int)) (st : GameState)
    (oid : Nat) (u v : Int)
    (hQ : ∃ c, st.board.get_cell u v = some c ∧ c.obj = some oid) :
    ∃ c, (coords.foldl (fun s q => s.placeCell q.1 q.2 oid) st).board.get_cell u v = some c ∧
      c.obj = some oid := by
  induction coords generalizing st with
  | nil => exact hQ
  | cons q rest ih =>
    exact ih _ (GameState.placeCell_preserves_Q st q.1 q.2 u v oid hQ)

lemma GameState.foldl_placeCell_Q (coords : List (Int × Int)) (st : GameState) (oid : Nat)
    (hex : ∀ p ∈ coords, ∃ c, st.board.get_cell p.1 p.2 = some c) :
    ∀ p ∈ coords,
      ∃ c, (coords.foldl (fun s q => s.placeCell q.1 q.2 oid) st).board.get_cell p.1 p.2 =
          some c ∧ c.obj = some oid := by
  induction coords generalizing st with
  | nil => intro p hp; cases hp
  | cons q rest ih =>
    intro p hp
    rw [List.foldl_cons]
    rcases List.mem_cons.mp hp with rfl | hp
    · obtain ⟨c, hc⟩ := hex p (List.mem_cons_self _ _)
      exact GameState.foldl_placeCell_preserves_Q rest _ oid p.1 p.2
        (GameState.placeCell_establishes_Q _ oid hc)
    · exact ih _ (fun r hr =>
        GameState.placeCell_preserves_some st q.1 q.2 r.1 r.2 oid
          (hex r (List.mem_cons_of_mem _ hr))) p hp

lemma Board.get_cell_objects_irrel (b : Board) (os : List Nat) (u v : Int) :
    ({ b with objects := os } : Board).get_cell u v = b.get_cell u v := rfl

lemma GameState.place_object_failure (st : GameState) (oid : Nat) (obj : GameObject)
    (hobj : st.heap[oid]? = some obj) (h : st.board.can_place_object obj = false) :
    st.place_object oid = (false, st) := by
  unfold GameState.place_object
  rw [hobj]
  dsimp only
  rw [if_neg (by simp [h])]

lemma GameState.place_object_success (st : GameState) (oid : Nat) (obj : GameObject)
    (hobj : st.heap[oid]? = some obj) (h : st.board.can_place_object obj = true) :
    st.place_object oid =
      (true,
        { (obj.coordinates.foldl (fun s p => s.placeCell p.1 p.2 oid) st).modifyObj oid
            (fun o => { o with isPlaced := true }) with
          board := { ((obj.coordinates.foldl (fun s p => s.placeCell p.1 p.2 oid)
              st).modifyObj oid fun o => { o with isPlaced := true }).board with
            objects := ((obj.coordinates.foldl (fun s p => s.placeCell p.1 p.2 oid)
              st).modifyObj oid fun o => { o with isPlaced := true }).board.objects
              ++ [oid] } }) := by
  unfold GameState.place_object
  rw [hobj]
  dsimp only
  rw [if_pos h]

lemma Board.get_cell_congr (b b2 : Board) (hw : b.width = b2.width)
    (hh : b.height = b2.height) (hg : b.grid = b2.grid) (u v : Int) :
    b.get_cell u v = b2.get_cell u v := by
  unfold Board.get_cell Board.inBounds
  rw [hw, hh, hg]

lemma GameState.place_object_snd_board_get (st : GameState) (oid : Nat)
    (obj : GameObject) (hobj : st.heap[oid]? = some obj)
    (h : st.board.can_place_object obj = true) (u v : Int) :
    (st.place_object oid).2.board.get_cell u v =
      (obj.coordinates.foldl (fun s p => s.placeCell p.1 p.2 oid) st).board.get_cell u v := by
  rw [GameState.place_object_success st oid obj hobj h]
  dsimp only
  apply Board.get_cell_congr <;> (dsimp only; rw [GameState.modifyObj_board])

lemma GameState.place_object_snd_heap_get (st : GameState) (oid : Nat)
    (obj : GameObject) (hobj : st.heap[oid]? = some obj)
    (h : st.board.can_place_object obj = true) :
    (st.place_object oid).2.heap[oid]? = some { obj with isPlaced := true } := by
  rw [GameState.place_object_success st oid obj hobj h]
  dsimp only
  rw [GameState.modifyObj_heap_get]
  rcases GameState.foldl_placeCell_heap_inv obj.coordinates st oid obj
      (Or.inl hobj) with hi | hi <;> rw [hi] <;> rfl

lemma GameState.place_object_snd_objects (st : GameState) (oid : Nat)
    (obj : GameObject) (hobj : st.heap[oid]? = some obj)
    (h : st.board.can_place_object obj = true) :
    (st.place_object oid).2.board.objects = st.board.objects ++ [oid] := by
  rw [GameState.place_object_success st oid obj hobj h]
  dsimp only
  rw [GameState.modifyObj_board, GameState.foldl_placeCell_objects]

/-- C2: place_object re-validates via can_place_object; when validation
fails it returns false with the state completely unchanged (no cell, no heap
object, no registry entry modified), and when validation succeeds it returns
true, marks every target cell as occupied by the object, sets the object's
placed flag and appends the object to the board's object registry. -/
theorem place_object_spec (st : GameState) (oid : Nat) (obj : GameObject)
    (hobj : st.heap[oid]? = some obj) :
    (st.board.can_place_object obj = false → st.place_object oid = (false, st)) ∧
      (st.board.can_place_object obj = true →
        (st.place_object oid).1 = true ∧
          (∀ p ∈ obj.coordinates,
            ∃ c, (st.place_object oid).2.board.get_cell p.1 p.2 = some c ∧
              c.obj = some oid) ∧
          (st.place_object oid).2.heap[oid]? = some { obj with isPlaced := true } ∧
          (st.place_object oid).2.board.objects = st.board.objects ++ [oid]) := by
  constructor
  · exact GameState.place_object_failure st oid obj hobj
  · intro h
    refine ⟨?_, ?_, GameState.place_object_snd_heap_get st oid obj hobj h,
      GameState.place_object_snd_objects st oid obj hobj h⟩
    · rw [GameState.place_object_success st oid obj hobj h]
    · intro p hp
      rw [GameState.place_object_snd_board_get st oid obj hobj h p.1 p.2]
      exact GameState.foldl_placeCell_Q obj.coordinates st oid
        (fun r hr => (((Board.can_place_spec st.board obj).mp h).1 r hr).imp
          fun c hc => hc.1) p hp

/-- Concrete size-one ship used by the placement witnesses. -/
def obj1 : GameObject :=
  { payload := .ship { size := 1, hits := 0 }, coordinates := [(0, 0)],
    isPlaced := false, orientation := .horizontal }

/-- Concrete state on which placing obj1 succeeds. -/
def placeState1 : GameState :=
  { board := Board.init 1 1, heap := [obj1] }

/-- Concrete state on which placing obj1 fails (empty zero-size board). -/
def placeState2 : GameState :=
  { board := Board.init 0 0, heap := [obj1] }

/-- Witness for C2 at concrete inputs: one successful and one rejected
placement. -/
theorem place_object_spec_witness :
    ((placeState1.place_object 0).1 = true ∧
        (∀ p ∈ obj1.coordinates,
          ∃ c, (placeState1.place_object 0).2.board.get_cell p.1 p.2 = some c ∧
            c.obj = some 0) ∧
        (placeState1.place_object 0).2.heap[0]? = some { obj1 with isPlaced := true } ∧
        (placeState1.place_object 0).2.board.objects = placeState1.board.objects ++ [0]) ∧
      placeState2.place_object 0 = (false, placeState2) :=
  ⟨(place_object_spec placeState1 0 obj1 (by decide)).2 (by decide),
    (place_object_spec placeState2 0 obj1 (by decide)).1 (by decide)⟩

lemma MediumAI.mem_get_valid_neighbors_none {ai : MediumAI} {x y : Int} {q : Int × Int}
    (hm : q ∈ ai.get_valid_neighbors x y none) :
    (0 ≤ q.1 ∧ q.1 < (ai.width : Int) ∧ 0 ≤ q.2 ∧ q.2 < (ai.height : Int)) ∧
      q ∈ ai.available_targets ∧ orthNeighbor (x, y) q := by
  unfold MediumAI.get_valid_neighbors at hm
  simp only [List.mem_filterMap] at hm
  obtain ⟨d, hd, hq⟩ := hm
  split at hq
  · rename_i hcond
    obtain rfl : q = (x + d.1, y + d.2) := (Option.some.inj hq).symm
    obtain ⟨h1, h2, h3, h4, h5, _⟩ := hcond
    have hd4 : (d.1 = 1 ∧ d.2 = 0) ∨ (d.1 = -1 ∧ d.2 = 0) ∨
        (d.1 = 0 ∧ d.2 = 1) ∨ (d.1 = 0 ∧ d.2 = -1) := by
      simpa [Prod.ext_iff] using hd
    refine ⟨⟨h1, h2, h3, h4⟩, h5, ?_⟩
    unfold orthNeighbor
    dsimp only
    omega
  · simp at hq

/-- C6: in the hunt-and-target AI (Medium, inherited by Hard), a hit at
(x, y) with no previously recorded first hit on an undestroyed ship records
first_hit = (x, y) and leaves in the search queue only coordinates that are
in-bounds, still present in available_targets, and orthogonal (4-connected)
neighbors of (x, y).  The search queue is empty whenever first_hit is unset
(it is only filled while a hunt is in progress and cleared together with
first_hit on a destroy), which the hypothesis makes explicit. -/
theorem hunt_first_hit_queue (ai : MediumAI) (x y : Int) (cells : List (Int × Int))
    (hfh : ai.first_hit = none) (hq : ai.search_queue = []) :
    (ai.process_shot_result x y true false cells).first_hit = some (x, y) ∧
      ∀ q ∈ (ai.process_shot_result x y true false cells).search_queue,
        (0 ≤ q.1 ∧ q.1 < (ai.width : Int) ∧ 0 ≤ q.2 ∧ q.2 < (ai.height : Int)) ∧
          q ∈ (ai.process_shot_result x y true false cells).available_targets ∧
          orthNeighbor (x, y) q := by
  have hres : ai.process_shot_result x y true false cells =
      { ai with first_hit := some (x, y)
                search_queue := ai.search_queue ++ ai.get_valid_neighbors x y none } := by
    unfold MediumAI.process_shot_result
    rw [hfh]
    rfl
  rw [hres]
  refine ⟨rfl, ?_⟩
  intro q hmem
  have hmem2 : q ∈ ai.search_queue ++ ai.get_valid_neighbors x y none := hmem
  rw [hq, List.nil_append] at hmem2
  have h := MediumAI.mem_get_valid_neighbors_none hmem2
  exact ⟨h.1, h.2.1, h.2.2⟩

/-- Concrete hunt state for the C6 witness: a fresh 2 by 1 board with all
cells untried. -/
def huntAI : MediumAI :=
  { width := 2, height := 1, available_targets := [(0, 0), (1, 0)],
    search_queue := [], current_direction := none, first_hit := none }

/-- Witness for C6 at a concrete input: the first hit at (0, 0) on the 2 by 1
board. -/
theorem hunt_first_hit_queue_witness :
    (huntAI.process_shot_result 0 0 true false []).first_hit = some (0, 0) ∧
      ∀ q ∈ (huntAI.process_shot_result 0 0 true false []).search_queue,
        (0 ≤ q.1 ∧ q.1 < (huntAI.width : Int) ∧ 0 ≤ q.2 ∧ q.2 < (huntAI.height : Int)) ∧
          q ∈ (huntAI.process_shot_result 0 0 true false []).available_targets ∧
          orthNeighbor (0, 0) q :=
  hunt_first_hit_queue huntAI 0 0 [] rfl rfl

lemma foldl_erase_sublist (rs : List (Int × Int)) (l : List (Int × Int)) :
    List.Sublist (rs.foldl (fun acc q => if q ∈ acc then acc.erase q else acc) l) l := by
  induction rs generalizing l with
  | nil => exact List.Sublist.refl l
  | cons r rest ih =>
    rw [List.foldl_cons]
    refine (ih _).trans ?_
    split
    · exact List.erase_sublist r l
    · exact List.Sublist.refl l

lemma foldl_erase_not_mem (rs : List (Int × Int)) (l : List (Int × Int)) (hnd : l.Nodup)
    (r : Int × Int) (hr : r ∈ rs) :
    r ∉ rs.foldl (fun acc q => if q ∈ acc then acc.erase q else acc) l := by
  induction rs generalizing l with
  | nil => cases hr
  | cons q rest ih =>
    rw [List.foldl_cons]
    rcases List.mem_cons.mp hr with rfl | hr2
    · intro hmem
      have hstep : r ∈ (if r ∈ l then l.erase r else l) :=
        (foldl_erase_sublist rest _).mem hmem
      split at hstep
      · exact hnd.not_mem_erase hstep
      · rename_i hn
        exact hn hstep
    · refine ih _ ?_ hr2
      split
      · exact hnd.erase _
      · exact hnd

lemma MediumAI.innerFold_spec (ns : List (Int × Int)) (ai : MediumAI) :
    ns.foldl (fun a2 n => if n ∈ a2.available_targets then
        { a2 with available_targets := a2.available_targets.erase n } else a2) ai =
      { ai with available_targets :=
          (ns.foldl (fun acc q => if q ∈ acc then acc.erase q else acc)
            ai.available_targets) } := by
  induction ns generalizing ai with
  | nil => rfl
  | cons n rest ih =>
    rw [List.foldl_cons, List.foldl_cons]
    by_cases hn : n ∈ ai.available_targets
    · rw [if_pos hn, if_pos hn]
      exact ih _
    · rw [if_neg hn, if_neg hn]
      exact ih _

lemma MediumAI.removeFold_spec (cells : List (Int × Int)) (ai : MediumAI) :
    cells.foldl (fun a c => (a.get_surrounding_cells c.1 c.2).foldl
        (fun a2 n => if n ∈ a2.available_targets then
          { a2 with available_targets := a2.available_targets.erase n } else a2) a) ai =
      { ai with available_targets :=
          ((cells.flatMap fun c => ai.get_surrounding_cells c.1 c.2).foldl
            (fun acc q => if q ∈ acc then acc.erase q else acc)
            ai.available_targets) } := by
  induction cells generalizing ai with
  | nil => rfl
  | cons c rest ih =>
    rw [List.foldl_cons, MediumAI.innerFold_spec, ih, List.flatMap_cons,
      List.foldl_append]
    rfl

lemma MediumAI.mem_get_surrounding_of {ai : MediumAI} {x y : Int} {q : Int × Int}
    (hm : mooreAdjacent (x, y) q)
    (hb : 0 ≤ q.1 ∧ q.1 < (ai.width : Int) ∧ 0 ≤ q.2 ∧ q.2 < (ai.height : Int)) :
    q ∈ ai.get_surrounding_cells x y := by
  obtain ⟨hne, hx, hy⟩ := hm
  have hx2 : (q.1 - x).natAbs ≤ 1 := hx
  have hy2 : (q.2 - y).natAbs ≤ 1 := hy
  unfold MediumAI.get_surrounding_cells
  simp only [List.mem_flatMap, List.mem_filterMap]
  refine ⟨q.1 - x, by simp; omega, q.2 - y, by simp; omega, ?_⟩
  rw [if_neg, if_pos]
  · exact congrArg some (Prod.ext (by dsimp only; omega) (by dsimp only; omega))
  · refine ⟨by omega, by omega, by omega, by omega⟩
  · rintro ⟨h1, h2⟩
    exact hne (Prod.ext (by dsimp only; omega) (by dsimp only; omega))

/-- C7: when the hunt-and-target AI is told a hit destroyed a ship, the
search queue, direction and first hit are all cleared, and every in-bounds
8-connected neighbor of every destroyed-ship cell is no longer in
available_targets.  available_targets is duplicate-free in every reachable
state (seeded with distinct coordinates and only ever shrunk), which the
hypothesis makes explicit. -/
theorem hunt_destroy_clears_state (ai : MediumAI) (x y : Int) (cells : List (Int × Int))
    (hnd : ai.available_targets.Nodup) :
    (ai.process_shot_result x y true true cells).search_queue = [] ∧
      (ai.process_shot_result x y true true cells).current_direction = none ∧
      (ai.process_shot_result x y true true cells).first_hit = none ∧
      ∀ c ∈ cells, ∀ q : Int × Int, mooreAdjacent c q →
        (0 ≤ q.1 ∧ q.1 < (ai.width : Int) ∧ 0 ≤ q.2 ∧ q.2 < (ai.height : Int)) →
          q ∉ (ai.process_shot_result x y true true cells).available_targets := by
  have hres : ai.process_shot_result x y true true cells =
      (if cells.isEmpty then
        ({ ai with search_queue := [], current_direction := none, first_hit := none }
          : MediumAI)
      else
        cells.foldl (fun a c => (a.get_surrounding_cells c.1 c.2).foldl
          (fun a2 n => if n ∈ a2.available_targets then
            { a2 with available_targets := a2.available_targets.erase n } else a2) a)
          { ai with search_queue := [], current_direction := none, first_hit := none }) := by
    unfold MediumAI.process_shot_result
    rfl
  rw [hres]
  by_cases hemp : cells.isEmpty
  · rw [if_pos hemp]
    refine ⟨rfl, rfl, rfl, ?_⟩
    intro c hc
    rw [List.isEmpty_iff.mp hemp] at hc
    cases hc
  · rw [if_neg hemp, MediumAI.removeFold_spec]
    refine ⟨rfl, rfl, rfl, ?_⟩
    intro c hc q hmoore hb hmem
    have hmem2 : q ∈ (cells.flatMap fun c =>
        ({ ai with search_queue := ([] : List (Int × Int)), current_direction :=
          (none : Option (Int × Int)), first_hit :=
          (none : Option (Int × Int)) } : MediumAI).get_surrounding_cells c.1 c.2).foldl
          (fun acc q => if q ∈ acc then acc.erase q else acc) ai.available_targets := hmem
    exact foldl_erase_not_mem _ _ hnd q
      (List.mem_flatMap.mpr ⟨c, hc, MediumAI.mem_get_surrounding_of hmoore hb⟩) hmem2

/-- Concrete hunt state for the C7 witness: a 2 by 2 board, a one-cell ship
destroyed at (0, 0). -/
def huntAI2 : MediumAI :=
  { width := 2, height := 2, available_targets := [(0, 1), (1, 0), (1, 1)],
    search_queue := [], current_direction := none, first_hit := some (0, 0) }

/-- Witness for C7 at a concrete input: destroying a one-cell ship at (0, 0)
clears the hunt state and empties the surrounding targets. -/
theorem hunt_destroy_clears_state_witness :
    (huntAI2.process_shot_result 0 0 true true [(0, 0)]).search_queue = [] ∧
      (huntAI2.process_shot_result 0 0 true true [(0, 0)]).current_direction = none ∧
      (huntAI2.process_shot_result 0 0 true true [(0, 0)]).first_hit = none ∧
      ∀ c ∈ [((0 : Int), (0 : Int))], ∀ q : Int × Int, mooreAdjacent c q →
        (0 ≤ q.1 ∧ q.1 < (huntAI2.width : Int) ∧ 0 ≤ q.2 ∧ q.2 < (huntAI2.height : Int)) →
          q ∉ (huntAI2.process_shot_result 0 0 true true [(0, 0)]).available_targets :=
  hunt_destroy_clears_state huntAI2 0 0 [(0, 0)] (by decide)

lemma PlayerSt.place_safely_no_position (p : PlayerSt) (oid pick : Nat)
    (obj : GameObject) (hobj : p.gs.heap[oid]? = some obj)
    (hvp : p.valid_positions obj = []) :
    p.place_safely oid pick =
      (false, { p with gs := p.gs.modifyObj oid scanLeftover }) := by
  unfold PlayerSt.place_safely
  rw [hobj]
  dsimp only
  rw [if_pos (by rw [hvp]; rfl)]

/-- C10: Player.place_random appends the object to the fleet list even when
no valid position exists and placement fails: it returns false, the fleet
list gains the object, the object stays unplaced and undestroyed, and
has_lost consequently reports false for the player. -/
theorem place_random_appends_fleet (p : PlayerSt) (oid pick : Nat) (obj : GameObject)
    (s : Ship) (hobj : p.gs.heap[oid]? = some obj) (hpay : obj.payload = .ship s)
    (hnd : s.hits < s.size) (hunpl : obj.isPlaced = false)
    (hvp : p.valid_positions obj = []) :
    (p.place_random oid pick).1 = false ∧
      (p.place_random oid pick).2.fleet = p.fleet ++ [oid] ∧
      (∃ o, (p.place_random oid pick).2.gs.heap[oid]? = some o ∧
        o.is_destroyed = false ∧ o.isPlaced = false) ∧
      (p.place_random oid pick).2.has_lost = false := by
  have hrand : p.place_random oid pick =
      (false, { p with gs := p.gs.modifyObj oid scanLeftover
                       fleet := p.fleet ++ [oid] }) := by
    unfold PlayerSt.place_random
    rw [PlayerSt.place_safely_no_position p oid pick obj hobj hvp]
  have hheap : (p.gs.modifyObj oid scanLeftover).heap[oid]? =
      some (scanLeftover obj) := by
    rw [GameState.modifyObj_heap_get, hobj]
    rfl
  have hdes : (scanLeftover obj).is_destroyed = false := by
    unfold scanLeftover GameObject.set_position GameObject.withOrientation
      GameObject.is_destroyed
    dsimp only
    rw [hpay]
    unfold Ship.is_destroyed
    simp only [decide_eq_false_iff_not]
    omega
  have hpl : (scanLeftover obj).isPlaced = false := by
    unfold scanLeftover GameObject.set_position GameObject.withOrientation
    exact hunpl
  rw [hrand]
  refine ⟨rfl, rfl, ⟨scanLeftover obj, hheap, hdes, hpl⟩, ?_⟩
  show (p.fleet ++ [oid]).all
    (fun i => (((p.gs.modifyObj oid scanLeftover).heap[i]?).map
      GameObject.is_destroyed).getD true) = false
  rw [List.all_append]
  simp only [List.all_cons, List.all_nil, Bool.and_true, hheap]
  rw [show (Option.map GameObject.is_destroyed (some (scanLeftover obj))).getD true
      = (scanLeftover obj).is_destroyed from rfl, hdes, Bool.and_false]

/-- Concrete player with a zero-size board for the C10 witness: no valid
position exists for any one-cell ship. -/
def stuckPlayer : PlayerSt :=
  { gs := { board := Board.init 0 0, heap := [obj1] }, fleet := [] }

/-- Witness for C10 at a concrete input: placing obj1 on the zero-size board
fails yet appends it to the fleet. -/
theorem place_random_appends_fleet_witness :
    (stuckPlayer.place_random 0 0).1 = false ∧
      (stuckPlayer.place_random 0 0).2.fleet = stuckPlayer.fleet ++ [0] ∧
      (∃ o, (stuckPlayer.place_random 0 0).2.gs.heap[0]? = some o ∧
        o.is_destroyed = false ∧ o.isPlaced = false) ∧
      (stuckPlayer.place_random 0 0).2.has_lost = false :=
  place_random_appends_fleet stuckPlayer 0 0 obj1 { size := 1, hits := 0 }
    (by decide) (by decide) (by decide) (by decide) (by decide)

lemma ExtPhase.setPlayerAt_shooting_ship (ph : ExtPhase) (i : Nat) (p : PlayerSt) :
    (ph.setPlayerAt i p).shooting_ship = ph.shooting_ship := by
  unfold ExtPhase.setPlayerAt
  by_cases h : i = 0 <;> simp [h]

lemma ExtPhase.setPlayerAt_idx (ph : ExtPhase) (i : Nat) (p : PlayerSt) :
    (ph.setPlayerAt i p).current_player_idx = ph.current_player_idx := by
  unfold ExtPhase.setPlayerAt
  by_cases h : i = 0 <;> simp [h]

lemma ExtPhase.setPlayerAt_hit_mine (ph : ExtPhase) (i : Nat) (p : PlayerSt) :
    (ph.setPlayerAt i p).hit_mine = ph.hit_mine := by
  unfold ExtPhase.setPlayerAt
  by_cases h : i = 0 <;> simp [h]

lemma ExtPhase.setPlayerAt_shot (ph : ExtPhase) (i : Nat) (p : PlayerSt) :
    (ph.setPlayerAt i p).shot = ph.shot := by
  unfold ExtPhase.setPlayerAt
  by_cases h : i = 0 <;> simp [h]

lemma ExtPhase.playerAt_setPlayerAt_self (ph : ExtPhase) (i : Nat) (p : PlayerSt) :
    (ph.setPlayerAt i p).playerAt i = p := by
  unfold ExtPhase.setPlayerAt ExtPhase.playerAt
  by_cases h : i = 0 <;> simp [h]

lemma ExtPhase.playerAt_setPlayerAt_swap (ph : ExtPhase) (i : Nat) (p : PlayerSt) :
    (ph.setPlayerAt (1 - i) p).playerAt i = ph.playerAt i := by
  unfold ExtPhase.setPlayerAt ExtPhase.playerAt
  by_cases h : i = 0
  · subst h
    simp
  · have h0 : 1 - i = 0 := by omega
    rw [h0]
    simp [h]

lemma ExtPhase.currentPlayer_setPlayerAt_other (ph : ExtPhase) (p : PlayerSt) :
    (ph.setPlayerAt (1 - ph.current_player_idx) p).currentPlayer = ph.currentPlayer := by
  unfold ExtPhase.currentPlayer
  rw [ExtPhase.setPlayerAt_idx]
  exact ExtPhase.playerAt_setPlayerAt_swap ph ph.current_player_idx p

lemma ExtPhase.next_player_playerAt (ph : ExtPhase) (i : Nat) :
    ph.next_player.playerAt i = ph.playerAt i := by
  unfold ExtPhase.next_player ExtPhase.playerAt
  rfl

lemma ExtPhase.next_player_idx (ph : ExtPhase) :
    ph.next_player.current_player_idx = 1 - ph.current_player_idx := rfl

lemma ExtPhase.next_turn_hit_mine (ph : ExtPhase) (hit : Bool) (hm : ph.hit_mine = true) :
    (ph.next_turn hit).1 = ph.next_player := by
  unfold ExtPhase.next_turn
  rw [hm]
  simp only [Bool.or_true, if_true]
  split <;> rfl

lemma GameObject.on_hit_mine {g : GameObject} {t : Bool} (h : g.payload = .mine t) :
    g.on_hit = ({ g with payload := .mine true }, true) := by
  unfold GameObject.on_hit
  rw [h]

lemma GameObject.on_hit_ship {g : GameObject} {s : Ship} (h : g.payload = .ship s) :
    g.on_hit = ({ g with payload := .ship (s.on_hit).1 }, (s.on_hit).2) := by
  unfold GameObject.on_hit
  rw [h]

lemma GameObject.destroy_ship {g : GameObject} {s : Ship} (h : g.payload = .ship s) :
    g.destroy = { g with payload := .ship { size := s.size, hits := s.size } } := by
  unfold GameObject.destroy Ship.destroy
  rw [h]

lemma GameState.shoot_at_hit {st : GameState} {x y : Int} {c : Cell} {oid : Nat}
    {o : GameObject} (hc : st.board.get_cell x y = some c) (hs : c.isShot = false)
    (ho : c.obj = some oid) (hh : st.heap[oid]? = some o) :
    st.shoot_at x y =
      ({ hit := true, is_destroyed := (o.on_hit).2, missed := false,
          hit_object := some oid },
        { board := st.board.setCell x y { c with isShot := true },
          heap := st.heap.set oid (o.on_hit).1 }) := by
  unfold GameState.shoot_at
  rw [hc]
  dsimp only
  rw [if_neg (by simp [hs]), ho]
  dsimp only
  rw [hh]

lemma GameState.shoot_at_snd_heap (gs : GameState) (x y : Int) :
    (gs.shoot_at x y).2.heap = gs.heap ∨
      ∃ oid o, gs.heap[oid]? = some o ∧
        (gs.shoot_at x y).2.heap = gs.heap.set oid (o.on_hit).1 := by
  unfold GameState.shoot_at
  cases hc : gs.board.get_cell x y with
  | none => exact Or.inl rfl
  | some cell =>
    dsimp only
    by_cases hsh : cell.isShot = true
    · rw [if_pos hsh]
      exact Or.inl rfl
    · rw [if_neg hsh]
      cases ho : cell.obj with
      | none => exact Or.inl rfl
      | some oid =>
        dsimp only
        cases hh : gs.heap[oid]? with
        | none => exact Or.inl rfl
        | some o => exact Or.inr ⟨oid, o, hh, rfl⟩

lemma GameState.shoot_at_preserves_destroyed (gs : GameState) (x y : Int) (sid n : Nat)
    (h : ∃ o, gs.heap[sid]? = some o ∧ o.payload = .ship { size := n, hits := n }) :
    ∃ o2, (gs.shoot_at x y).2.heap[sid]? = some o2 ∧
      o2.payload = .ship { size := n, hits := n } := by
  obtain ⟨o, hh, hp⟩ := h
  rcases GameState.shoot_at_snd_heap gs x y with he | ⟨oid, o3, hh3, he⟩
  · rw [he]
    exact ⟨o, hh, hp⟩
  · rw [he]
    by_cases heq : oid = sid
    · subst heq
      have hlt : oid < gs.heap.length := (List.getElem?_eq_some.mp hh3).1
      have ho3 : o3 = o := Option.some.inj ((hh3.symm).trans hh)
      subst ho3
      have hstay : (Ship.on_hit { size := n, hits := n }).1 = { size := n, hits := n } := by
        unfold Ship.on_hit
        dsimp only
        rw [if_neg (by omega)]
      refine ⟨(o3.on_hit).1, by rw [List.getElem?_set_eq_of_lt _ hlt], ?_⟩
      rw [GameObject.on_hit_ship hp]
      dsimp only
      rw [hstay]
    · refine ⟨o, ?_, hp⟩
      rw [List.getElem?_set_ne heq]
      exact hh

lemma shootFold_heap (coords : List (Int × Int)) (gs : GameState) (b : Bool)
    (sid n : Nat)
    (h : ∃ o, gs.heap[sid]? = some o ∧ o.payload = .ship { size := n, hits := n }) :
    ∃ o2, (coords.foldl (fun acc q => ((acc.1.shoot_at q.1 q.2).2, true))
        (gs, b)).1.heap[sid]? = some o2 ∧
      o2.payload = .ship { size := n, hits := n } := by
  induction coords generalizing gs b with
  | nil => exact h
  | cons q rest ih =>
    rw [List.foldl_cons]
    exact ih _ _ (GameState.shoot_at_preserves_destroyed gs q.1 q.2 sid n h)

lemma shootFold_flag (coords : List (Int × Int)) (gs : GameState) (b : Bool)
    (hne : coords ≠ []) :
    (coords.foldl (fun acc q => ((acc.1.shoot_at q.1 q.2).2, true)) (gs, b)).2 = true := by
  induction coords generalizing gs b with
  | nil => exact absurd rfl hne
  | cons q rest ih =>
    rw [List.foldl_cons]
    by_cases h : rest = []
    · subst h
      rfl
    · exact ih _ _ h

lemma ExtPhase.currentPlayer_with_shot (ph : ExtPhase) (n : Nat) :
    ExtPhase.currentPlayer { ph with shot := n } = ph.currentPlayer := rfl

lemma ExtPhase.playerAt_with_hit_mine (ph : ExtPhase) (b : Bool) (i : Nat) :
    ExtPhase.playerAt { ph with hit_mine := b } i = ph.playerAt i := rfl

/-- C8: in the Extended Shooting phase, when the current player has a
confirmed shooting ship and the shot lands on an unshot mine cell of the
opponent's board, execute_turn reports a hit, the shooting ship's hit
counter afterwards equals its size (it reports destroyed), and the turn
passes to the other player immediately, regardless of the remaining shot
allowance. -/
theorem extended_mine_hit (ph : ExtPhase) (x y : Int) (sid mid : Nat)
    (shipObj mineObj : GameObject) (s : Ship) (t : Bool) (c : Cell)
    (hsel : ph.shooting_ship = some sid)
    (hship : ph.currentPlayer.gs.heap[sid]? = some shipObj)
    (hpay : shipObj.payload = .ship s)
    (hcoords : shipObj.coordinates ≠ [])
    (hcell : ph.otherPlayer.gs.board.get_cell x y = some c)
    (hunshot : c.isShot = false)
    (hocc : c.obj = some mid)
    (hmine : ph.otherPlayer.gs.heap[mid]? = some mineObj)
    (hmpay : mineObj.payload = .mine t) :
    (ph.execute_turn x y).1 = true ∧
      (∃ o, ((ph.execute_turn x y).2.1.playerAt ph.current_player_idx).gs.heap[sid]? =
          some o ∧ o.payload = .ship { size := s.size, hits := s.size } ∧
          o.is_destroyed = true) ∧
      (ph.execute_turn x y).2.1.current_player_idx = 1 - ph.current_player_idx := by
  have hshoot := GameState.shoot_at_hit hcell hunshot hocc hmine
  have hhit := GameObject.on_hit_mine hmpay
  have hltmid : mid < ph.otherPlayer.gs.heap.length := (List.getElem?_eq_some.mp hmine).1
  have hmflag : hitObjectIsMine
      { board := ph.otherPlayer.gs.board.setCell x y { c with isShot := true },
        heap := ph.otherPlayer.gs.heap.set mid (mineObj.on_hit).1 }
      { hit := true, is_destroyed := (mineObj.on_hit).2, missed := false,
        hit_object := some mid } = true := by
    unfold hitObjectIsMine
    dsimp only
    rw [List.getElem?_set_eq_of_lt _ hltmid, hhit]
    rfl
  unfold ExtPhase.execute_turn
  rw [hshoot]
  dsimp only
  rw [hmflag]
  generalize hP1 : ph.setPlayerAt (1 - ph.current_player_idx)
      { gs := { board := ph.otherPlayer.gs.board.setCell x y { obj := c.obj, isShot := true },
                heap := ph.otherPlayer.gs.heap.set mid mineObj.on_hit.1 },
        fleet := ph.otherPlayer.fleet } = P1
  have hss : P1.shooting_ship = some sid := by
    rw [← hP1, ExtPhase.setPlayerAt_shooting_ship, hsel]
  have hidx1 : P1.current_player_idx = ph.current_player_idx := by
    rw [← hP1, ExtPhase.setPlayerAt_idx]
  have hcur1 : P1.currentPlayer = ph.currentPlayer := by
    rw [← hP1]
    exact ExtPhase.currentPlayer_setPlayerAt_other ph _
  simp only [hss, Option.isSome_some, Bool.and_true, Bool.true_and, reduceIte]
  have hcur2 : ExtPhase.currentPlayer
      { player0 := P1.player0, player1 := P1.player1,
        current_player_idx := P1.current_player_idx, shooting_ship := some sid,
        shot := P1.shot + 1, selected_ship := P1.selected_ship,
        active_ship := P1.active_ship, selection_done := P1.selection_done,
        hit_mine := P1.hit_mine } = ph.currentPlayer := hcur1
  rw [hcur2, hship]
  dsimp only
  have hgsc : ph.currentPlayer.gs.modifyObj sid GameObject.destroy =
      { board := ph.currentPlayer.gs.board,
        heap := ph.currentPlayer.gs.heap.set sid shipObj.destroy } := by
    unfold GameState.modifyObj
    rw [hship]
  rw [hgsc]
  generalize hFD : List.foldl
      (fun (acc : GameState × Bool) (q : Int × Int) => ((acc.1.shoot_at q.1 q.2).2, true))
      (({ board := ph.currentPlayer.gs.board,
          heap := ph.currentPlayer.gs.heap.set sid shipObj.destroy } : GameState),
        P1.hit_mine)
      shipObj.coordinates = FD
  have hFD2 : FD.2 = true := by
    rw [← hFD]
    exact shootFold_flag _ _ _ hcoords
  have hFDheap : ∃ o2, FD.1.heap[sid]? = some o2 ∧
      o2.payload = .ship { size := s.size, hits := s.size } := by
    rw [← hFD]
    refine shootFold_heap _ _ _ _ _ ⟨shipObj.destroy, ?_, ?_⟩
    · show (ph.currentPlayer.gs.heap.set sid shipObj.destroy)[sid]? =
        some shipObj.destroy
      exact List.getElem?_set_eq_of_lt _ ((List.getElem?_eq_some.mp hship).1)
    · rw [GameObject.destroy_ship hpay]
  have hdes : ∀ o2 : GameObject,
      o2.payload = .ship { size := s.size, hits := s.size } →
      o2.is_destroyed = true := by
    intro o2 hp2
    unfold GameObject.is_destroyed
    rw [hp2]
    unfold Ship.is_destroyed
    simp
  refine ⟨trivial, ?_, ?_⟩
  · rw [ExtPhase.next_turn_hit_mine]
    · rw [ExtPhase.next_player_playerAt, ← hidx1, ExtPhase.playerAt_with_hit_mine,
        ExtPhase.playerAt_setPlayerAt_self]
      obtain ⟨o2, ho2, hp2⟩ := hFDheap
      exact ⟨o2, ho2, hp2, hdes o2 hp2⟩
    · exact hFD2
  · rw [ExtPhase.next_turn_hit_mine]
    · rw [ExtPhase.next_player_idx]
      dsimp only
      rw [ExtPhase.setPlayerAt_idx]
      dsimp only
      rw [hidx1]
    · exact hFD2

/-- Concrete size-2 ship (with no prior hits) for the C8 witness. -/
def mineShipW : GameObject :=
  { payload := .ship { size := 2, hits := 0 }, coordinates := [(0, 0)],
    isPlaced := true, orientation := .horizontal }

/-- Concrete untriggered mine for the C8 witness. -/
def mineMineW : GameObject :=
  { payload := .mine false, coordinates := [(0, 0)], isPlaced := true,
    orientation := .horizontal }

/-- Concrete one-cell board with an object at (0, 0), used by the C8
witness. -/
def mineBoardW : Board :=
  { width := 1, height := 1, grid := [[{ obj := some 0, isShot := false }]],
    objects := [0] }

/-- Concrete extended phase for the C8 witness: player 0 acts with a
confirmed size-2 ship, player 1 has a mine at (0, 0). -/
def mineShotPhase : ExtPhase :=
  { player0 := { gs := { board := mineBoardW, heap := [mineShipW] }, fleet := [0] }
    player1 := { gs := { board := mineBoardW, heap := [mineMineW] }, fleet := [0] }
    current_player_idx := 0
    shooting_ship := some 0
    shot := 0
    selected_ship := none
    active_ship := none
    selection_done := true
    hit_mine := false }

/-- Witness for C8 at a concrete input: shooting the mine at (0, 0) destroys
the confirmed ship and passes the turn. -/
theorem extended_mine_hit_witness :
    (mineShotPhase.execute_turn 0 0).1 = true ∧
      (∃ o, ((mineShotPhase.execute_turn 0 0).2.1.playerAt
          mineShotPhase.current_player_idx).gs.heap[0]? = some o ∧
          o.payload = .ship { size := 2, hits := 2 } ∧ o.is_destroyed = true) ∧
      (mineShotPhase.execute_turn 0 0).2.1.current_player_idx =
        1 - mineShotPhase.current_player_idx :=
  extended_mine_hit mineShotPhase 0 0 0 0 mineShipW mineMineW
    { size := 2, hits := 0 } false { obj := some 0, isShot := false }
    (by decide) (by decide) (by decide) (by decide) (by decide) (by decide)
    (by decide) (by decide) (by decide)

lemma GameState.shoot_at_miss {st : GameState} {x y : Int} {c : Cell}
    (hc : st.board.get_cell x y = some c) (hs : c.isShot = false)
    (ho : c.obj = none) :
    st.shoot_at x y =
      (ShootResult.miss,
        { st with board := st.board.setCell x y { c with isShot := true } }) := by
  unfold GameState.shoot_at
  rw [hc]
  dsimp only
  rw [if_neg (by simp [hs]), ho]

lemma ExtPhase.next_turn_no_pass (ph : ExtPhase) (hit : Bool)
    (hc : ((ph.shooting_ship.isNone && ph.shot == 1) ||
        decide ((match ph.shooting_ship with
          | some sid => ((ph.currentPlayer.gs.heap[sid]?).map GameObject.size).getD 0
          | none => 0) ≤ ph.shot) || ph.hit_mine) = false) :
    (ph.next_turn hit).1 = ph := by
  unfold ExtPhase.next_turn
  dsimp only
  simp only [hc]
  split
  · rename_i h
    cases h
  · split
    · rfl
    · rfl

/-- C9 (amended): in the Extended Shooting phase, when the acting player has
a confirmed shooting ship of size at least 2, no shot fired yet, no mine
flagged, and their first shot lands as a miss on an empty unshot opponent
cell, the turn does NOT pass: execute_turn reports a miss, leaves
current_player_idx unchanged, keeps the confirmed ship selected, and records
one spent shot (the turn passes only once the shot count reaches the ship's
size, or a mine is hit). -/
theorem extended_first_miss_keeps_turn (ph : ExtPhase) (x y : Int) (sid : Nat)
    (shipObj : GameObject) (c : Cell)
    (hsel : ph.shooting_ship = some sid)
    (hship : ph.currentPlayer.gs.heap[sid]? = some shipObj)
    (hsize : 2 ≤ shipObj.size)
    (hshot0 : ph.shot = 0)
    (hm : ph.hit_mine = false)
    (hcell : ph.otherPlayer.gs.board.get_cell x y = some c)
    (hunshot : c.isShot = false)
    (hempty : c.obj = none) :
    (ph.execute_turn x y).1 = false ∧
      (ph.execute_turn x y).2.1.current_player_idx = ph.current_player_idx ∧
      (ph.execute_turn x y).2.1.shooting_ship = some sid ∧
      (ph.execute_turn x y).2.1.shot = 1 := by
  have hshoot := GameState.shoot_at_miss hcell hunshot hempty
  unfold ExtPhase.execute_turn
  rw [hshoot]
  dsimp only
  generalize hP1 : ph.setPlayerAt (1 - ph.current_player_idx)
      { gs := { board := ph.otherPlayer.gs.board.setCell x y { obj := c.obj, isShot := true },
                heap := ph.otherPlayer.gs.heap },
        fleet := ph.otherPlayer.fleet } = P1
  have hss : P1.shooting_ship = some sid := by
    rw [← hP1, ExtPhase.setPlayerAt_shooting_ship, hsel]
  have hidx1 : P1.current_player_idx = ph.current_player_idx := by
    rw [← hP1, ExtPhase.setPlayerAt_idx]
  have hcur1 : P1.currentPlayer = ph.currentPlayer := by
    rw [← hP1]
    exact ExtPhase.currentPlayer_setPlayerAt_other ph _
  have hshot1 : P1.shot = ph.shot := by
    rw [← hP1, ExtPhase.setPlayerAt_shot]
  have hm1 : P1.hit_mine = ph.hit_mine := by
    rw [← hP1, ExtPhase.setPlayerAt_hit_mine]
  simp only [ShootResult.miss, Bool.false_and, Bool.and_false, hss,
    Option.isSome_some, Bool.false_eq_true, if_false, eq_self_iff_true, if_true]
  rw [ExtPhase.next_turn_no_pass]
  · refine ⟨trivial, ?_, rfl, ?_⟩
    · dsimp only
      rw [hidx1]
    · dsimp only
      rw [hshot1, hshot0]
  · have hcur2 : ExtPhase.currentPlayer
        { player0 := P1.player0, player1 := P1.player1,
          current_player_idx := P1.current_player_idx, shooting_ship := some sid,
          shot := P1.shot + 1, selected_ship := P1.selected_ship,
          active_ship := P1.active_ship, selection_done := P1.selection_done,
          hit_mine := P1.hit_mine } = ph.currentPlayer := hcur1
    dsimp only
    rw [hcur2, hship, hshot1, hshot0, hm1, hm]
    simp only [Option.map_some', Option.getD_some, Bool.or_false, Bool.false_or,
      Option.isNone_some, Bool.false_and]
    simp only [decide_eq_false_iff_not]
    omega

/-- Concrete size-2 ship with no hits, used by the C9 counterexample. -/
def cexShip : GameObject :=
  { payload := .ship { size := 2, hits := 0 }, coordinates := [(0, 0)],
    isPlaced := true, orientation := .horizontal }

/-- Concrete one-cell empty board, used by the C9 counterexample. -/
def cexBoardEmpty : Board :=
  { width := 1, height := 1, grid := [[{ obj := none, isShot := false }]],
    objects := [] }

/-- Concrete extended phase for C9: player 0 acts with a confirmed size-2
ship and no shots fired; the opponent cell (0, 0) is empty. -/
def cexPhase : ExtPhase :=
  { player0 := { gs := { board := mineBoardW, heap := [cexShip] }, fleet := [0] }
    player1 := { gs := { board := cexBoardEmpty, heap := [cexShip] }, fleet := [0] }
    current_player_idx := 0
    shooting_ship := some 0
    shot := 0
    selected_ship := none
    active_ship := none
    selection_done := true
    hit_mine := false }

/-- Counterexample to C9 as stated: with a confirmed size-2 shooting ship,
no shots fired yet, and a first shot that misses on an empty opponent cell,
execute_turn leaves current_player_idx unchanged — the turn does not pass to
the other player even though only 1 of the 2 allotted shots was used. -/
theorem extended_first_miss_cex :
    cexPhase.shooting_ship = some 0 ∧
      ((cexPhase.currentPlayer.gs.heap[0]?).map GameObject.size).getD 0 = 2 ∧
      cexPhase.shot = 0 ∧
      (cexPhase.execute_turn 0 0).1 = false ∧
      (cexPhase.execute_turn 0 0).2.1.current_player_idx =
        cexPhase.current_player_idx ∧
      ¬((cexPhase.execute_turn 0 0).2.1.current_player_idx =
        1 - cexPhase.current_player_idx) := by
  decide

/-- Witness for the amended C9 at a concrete input. -/
theorem extended_first_miss_keeps_turn_witness :
    (cexPhase.execute_turn 0 0).1 = false ∧
      (cexPhase.execute_turn 0 0).2.1.current_player_idx =
        cexPhase.current_player_idx ∧
      (cexPhase.execute_turn 0 0).2.1.shooting_ship = some 0 ∧
      (cexPhase.execute_turn 0 0).2.1.shot = 1 :=
  extended_first_miss_keeps_turn cexPhase 0 0 0 cexShip
    { obj := none, isShot := false }
    (by decide) (by decide) (by decide) (by decide) (by decide) (by decide)
    (by decide) (by decide)

end Battleships
